import Mathlib

/-! Verification of the YAML iframe preview extension core (src/extension.ts):
content-source resolution, embedding policy, debounced change streaming,
session registry, and the ephemeral demo HTTP server. -/

namespace YamlPreview

/-! ## Model of the platform URL parser

`isHttpsUrl`, `resolveAppSrc` and `startDemoServer` use the WHATWG `URL`
constructor, a platform primitive outside the repository.  We model the
fragment of its behaviour the extension relies on: absolute
`scheme://host[:port]/...` URLs, lowercased protocol, and `origin` with the
default port elided for http/https.  Inputs the model rejects (no `://`,
empty host, invalid scheme characters) are inputs on which `new URL` either
throws or yields a non-https protocol; either way `isHttpsUrl` returns
`false`, matching the code's `try/catch`. -/

def isSchemeChar (c : Char) : Bool :=
  c.isAlphanum || c == '+' || c == '-' || c == '.'

def hostChar (c : Char) : Bool :=
  c != '/' && c != '?' && c != '#'

/-- Split a character list at the first occurrence of "://": returns the
scheme characters before it and the remainder after it. -/
def splitScheme : List Char → Option (List Char × List Char)
  | [] => none
  | ':' :: '/' :: '/' :: rest => some ([], rest)
  | c :: rest =>
    match splitScheme rest with
    | some (s, r) => some (c :: s, r)
    | none => none

structure URLRec where
  protocol : String
  hostname : String
  port : String
  deriving Repr, DecidableEq

def URLRec.origin (u : URLRec) : String :=
  u.protocol ++ "//" ++ u.hostname ++ (if u.port = "" then "" else ":" ++ u.port)

def validScheme (s : List Char) : Bool :=
  match s with
  | [] => false
  | c :: _ => c.isAlpha && s.all isSchemeChar

/-- Interpret the part after "://": host up to a delimiter, then an optional
":port", eliding the scheme's default port as `URL.origin` does. -/
def parseURLCore (schemeChars rest : List Char) : Option URLRec :=
  if validScheme schemeChars then
    let scheme := (schemeChars.map Char.toLower).asString
    let hostport := rest.takeWhile hostChar
    if hostport.isEmpty then none
    else
      let hostname := hostport.takeWhile (fun c => c != ':')
      let rawPort := (hostport.dropWhile (fun c => c != ':')).drop 1
      let portStr :=
        if (scheme == "https" && rawPort == ['4', '4', '3'])
            || (scheme == "http" && rawPort == ['8', '0']) then []
        else rawPort
      some ⟨scheme ++ ":", hostname.asString, portStr.asString⟩
  else none

def parseURL (value : String) : Option URLRec :=
  match splitScheme value.data with
  | none => none
  | some (schemeChars, rest) => parseURLCore schemeChars rest

/-! ## isHttpsUrl (extension.ts lines 103-111) -/

/-- Model of `isHttpsUrl`: `undefined` is `none`; the JS falsy test `!value`
also rejects the empty string; `new URL` throwing is the `none` branch of
`parseURL`. -/
def isHttpsUrl (value : Option String) : Bool :=
  match value with
  | none => false
  | some v =>
    if v = "" then false
    else
      match parseURL v with
      | some u => u.protocol == "https:"
      | none => false

/-! ## resolveAppSrc (extension.ts lines 113-141) -/

/-- The host-provided webview data `resolveAppSrc` reads: its CSP source token
and the `asWebviewUri` form of the bundled `src/demo/index.html`. -/
structure Webview where
  cspSource : String
  demoResourceUri : String
  deriving Repr, DecidableEq

structure AppSrc where
  src : String
  frameSrcCsp : String
  targetOrigin : String
  deriving Repr, DecidableEq

/-- `new URL(s).origin` for an `s` already known to parse. -/
def urlOrigin (s : String) : String :=
  ((parseURL s).map URLRec.origin).getD ""

/-- JS truthiness of a `string | undefined` value. -/
def truthy : Option String → Bool
  | none => false
  | some s => s != ""

def resolveAppSrc (webview : Webview) (remoteUrl : String) (demoUrl : Option String)
    (allowHttp : Bool) : AppSrc :=
  if isHttpsUrl (some remoteUrl) then
    let origin := urlOrigin remoteUrl
    ⟨remoteUrl, origin, origin⟩
  else if allowHttp && truthy demoUrl then
    let d := demoUrl.getD ""
    let origin := urlOrigin d
    ⟨d, origin, origin⟩
  else
    ⟨webview.demoResourceUri, webview.cspSource ++ " vscode-resource:", "*"⟩

inductive ContentSource
  | Remote
  | LocalServed
  | LocalBundled
  deriving Repr, DecidableEq

/-- Which `ContentSource` variant `resolveAppSrc` picks: the tag of the
branch taken (spec section 3: computed once per session). -/
def resolvedVariant (remoteUrl : String) (demoUrl : Option String)
    (allowHttp : Bool) : ContentSource :=
  if isHttpsUrl (some remoteUrl) then .Remote
  else if allowHttp && truthy demoUrl then .LocalServed
  else .LocalBundled

/-! ## startDemoServer and the open flow (extension.ts lines 56-64, 221-258) -/

/-- URL built by `startDemoServer` from the bound port (line 255). -/
def demoServerUrl (port : Nat) : String :=
  "http://127.0.0.1:" ++ toString port ++ "/index.html"

/-- Lines 56-62 of `activate`: the demo server is started exactly when the
configured remote URL is not a valid https URL; `allowHttp` is not
consulted at this point. -/
def openStartsDemoServer (remoteUrl : String) : Bool :=
  !(isHttpsUrl (some remoteUrl))

/-- The open flow of `activate` (lines 56-64): when the remote URL is not
https the code awaits `startDemoServer`; a bind failure rejects that await
and the error propagates out of the command callback (`Except.error`);
otherwise `resolveAppSrc` runs with the demo URL of the bound port. -/
def openFlowResolve (webview : Webview) (remoteUrl : String) (allowHttp : Bool)
    (bindOutcome : Except String Nat) : Except String AppSrc :=
  if isHttpsUrl (some remoteUrl) then
    .ok (resolveAppSrc webview remoteUrl none allowHttp)
  else
    match bindOutcome with
    | .error e => .error e
    | .ok port => .ok (resolveAppSrc webview remoteUrl (some (demoServerUrl port)) allowHttp)

/-! ## Debounce (extension.ts lines 260-266) and the change streamer (66-85) -/

/-- One invocation of the debounced `sendUpdate`: its arrival time and the
document state (version, text) at that time. -/
structure Call where
  time : Nat
  version : Nat
  yaml : String
  deriving Repr, DecidableEq

/-- One `postMessage` actually performed by the timer callback: fire time
and the payload fields the callback reads from the document at fire time. -/
structure Emission where
  time : Nat
  version : Nat
  yaml : String
  deriving Repr, DecidableEq

/-- Trailing-edge debounce over a chronological list of calls (lines
260-266): each call clears any pending timer and schedules a new one `delay`
later; the pending timer fires only when the next call arrives strictly
after its deadline.  When a timer armed at `t` fires at `t + delay`, every
remaining call is later than that deadline, so the document state the
callback reads is the state of the call that armed the timer. -/
def debounceEmits (delay : Nat) : List Call → List Emission
  | [] => []
  | [c] => [⟨c.time + delay, c.version, c.yaml⟩]
  | c :: c2 :: rest =>
    if c.time + delay < c2.time then
      ⟨c.time + delay, c.version, c.yaml⟩ :: debounceEmits delay (c2 :: rest)
    else
      debounceEmits delay (c2 :: rest)

/-- Strictly increasing call times with every consecutive gap below `delay`:
a burst in the sense of the spec. -/
def burst (delay : Nat) : List Call → Bool
  | [] => true
  | [_] => true
  | c :: c2 :: rest =>
    (c.time < c2.time && c2.time < c.time + delay) && burst delay (c2 :: rest)

/-- Last element of the nonempty call list `c :: rest`. -/
def lastCall (c : Call) : List Call → Call
  | [] => c
  | c2 :: rest => lastCall c2 rest

/-! ## Session lifecycle and the dispose race (extension.ts 66-93, 260-266) -/

structure SessionState where
  disposed : Bool
  timerPending : Bool
  subscriptionActive : Bool
  serverOpen : Bool
  postMessageCount : Nat
  deriving Repr, DecidableEq

inductive SessionEvent
  | change
  | timerFire
  | dispose
  deriving Repr, DecidableEq

/-- Event-loop step of one session.  `change` (lines 82-85) schedules the
debounced send while the subscription is active.  `timerFire` (line 264)
runs the timer callback, which posts the snapshot unconditionally: neither
`debounce` nor the callback consults disposal state.  `dispose` (lines
87-91) disposes the change subscription, closes the demo server and evicts
the registry entry, but does not clear a pending debounce timer. -/
def sessionStep (s : SessionState) : SessionEvent → SessionState
  | .change =>
    if s.subscriptionActive then { s with timerPending := true } else s
  | .timerFire =>
    if s.timerPending then
      { s with timerPending := false, postMessageCount := s.postMessageCount + 1 }
    else s
  | .dispose =>
    { s with disposed := true, subscriptionActive := false, serverOpen := false }

def sessionRun (s : SessionState) (events : List SessionEvent) : SessionState :=
  events.foldl sessionStep s

/-- A live session whose debounce timer is pending. -/
def livePendingSession : SessionState :=
  ⟨false, true, true, true, 0⟩

/-! ## Session registry (extension.ts lines 8, 28-33, 87-93) -/

/-- Resource state of the open command: the registry keys holding live
sessions plus counters of panels, servers and change subscriptions
allocated so far. -/
structure World where
  registry : List String
  panelsCreated : Nat
  serversStarted : Nat
  subscriptions : Nat
  deriving Repr, DecidableEq

/-- The open command for a YAML document with key `key` (lines 28-93): a
hit in `previewByDoc` only reveals the existing panel and returns; a miss
creates a panel, starts the demo server when the remote URL is not https,
subscribes to document changes and registers the session under `key`. -/
def openPreview (w : World) (key : String) (startsServer : Bool) : World :=
  if key ∈ w.registry then w
  else
    { registry := key :: w.registry
      panelsCreated := w.panelsCreated + 1
      serversStarted := w.serversStarted + (if startsServer then 1 else 0)
      subscriptions := w.subscriptions + 1 }

/-- The `onDidDispose` handler's registry effect (line 90): evict the key. -/
def closePreview (w : World) (key : String) : World :=
  { w with registry := w.registry.erase key }

/-! ## Demo HTTP request handler (extension.ts lines 226-242) -/

structure HttpResponse where
  status : Nat
  contentType : Option String
  body : String
  deriving Repr, DecidableEq

/-- Line 227, `req.url ? req.url.split("?")[0] : "/"`: an absent or empty
(falsy) URL becomes "/", otherwise everything from the first '?' on is
dropped. -/
def requestPath (url : Option String) : String :=
  match url with
  | none => "/"
  | some u => if u = "" then "/" else (u.data.takeWhile (fun c => c != '?')).asString

/-- One request through the handler (lines 226-242).  `readResult` is the
outcome of the `fs.readFile` performed for this request: the handler reads
the file anew on every request and caches nothing.  On success the code
leaves the Node default status 200 and sets the text/html content type. -/
def handleRequest (readResult : Option String) (url : Option String) : HttpResponse :=
  let urlPath := requestPath url
  if urlPath != "/" && urlPath != "/index.html" then
    ⟨404, none, "Not Found"⟩
  else
    match readResult with
    | some html => ⟨200, some "text/html; charset=utf-8", html⟩
    | none => ⟨500, none, "Failed to load demo"⟩

structure ServerState where
  closed : Bool
  deriving Repr, DecidableEq

/-- Serving a request never touches the server's lifecycle state: only the
session's dispose handler closes the server. -/
def serveRequest (s : ServerState) (readResult : Option String) (url : Option String) :
    ServerState × HttpResponse :=
  (s, handleRequest readResult url)

/-! ## Configuration (extension.ts lines 51-54) -/

/-- Line 53, `Math.max(0, cfg.get<number>("debounceMs", 300))`: `cfg.get`
returns the default 300 when the setting is absent. -/
def effectiveDebounceMs (configured : Option Int) : Int :=
  max 0 (configured.getD 300)

/-! ## Decimal digits

`demoServerUrl` interpolates `String(port)`; its Lean counterpart is
`toString port`, whose character list is `Nat.toDigits 10 port`.  The
definitions below assign a numeric value back to such a digit list, which
yields the injectivity of `toString` on naturals needed to parse the demo
URL for an arbitrary port. -/

def digitVal (c : Char) : Nat := c.toNat - 48

def decimalVal (l : List Char) : Nat :=
  l.foldl (fun a c => a * 10 + digitVal c) 0

/-! ## Claim theorems -/

/-- C9: the effective coalescing delay is `max 0 configured`: a negative
configured `debounceMs` is clamped to 0 rather than passed through, and the
default when the setting is absent is 300. -/
theorem c9_debounce_clamp_and_default :
    (∀ c : Int, effectiveDebounceMs (some c) = max 0 c)
    ∧ effectiveDebounceMs none = 300
    ∧ (∀ c : Int, c < 0 → effectiveDebounceMs (some c) = 0) := by
  refine ⟨fun c => rfl, rfl, fun c hc => ?_⟩
  simp only [effectiveDebounceMs, Option.getD]
  exact max_eq_left hc.le

theorem c9_debounce_clamp_and_default_witness :
    effectiveDebounceMs (some (-5)) = 0 ∧ effectiveDebounceMs none = 300 :=
  ⟨c9_debounce_clamp_and_default.2.2 (-5) (by decide),
   c9_debounce_clamp_and_default.2.1⟩

/-- C2 fails on the code: disposing a session does not clear a pending
debounce timer and the timer callback does not consult disposal state, so a
timer pending at disposal fires afterwards and posts a snapshot message into
the disposed webview (`panel.webview.postMessage` is invoked). -/
theorem c2_timer_fires_after_dispose_posts_message :
    (sessionStep livePendingSession .dispose).disposed = true
    ∧ (sessionStep livePendingSession .dispose).timerPending = true
    ∧ (sessionRun livePendingSession [.dispose, .timerFire]).postMessageCount
        = livePendingSession.postMessageCount + 1 := by
  decide

/-- A registry hit makes the open command a pure reveal: the world state is
returned unchanged. -/
theorem openPreview_mem (w : World) (key : String) (b : Bool)
    (h : key ∈ w.registry) : openPreview w key b = w := by
  simp [openPreview, h]

/-- C7: opening for a key already in the registry reveals the existing panel
and changes nothing (no new panel, server or subscription); two successive
opens equal one open; and the registry keeps at most one session per key
(Nodup is preserved by open and close, so a present key counts once). -/
theorem c7_open_idempotent_registry :
    ∀ (w : World) (key : String) (b b2 : Bool),
      (key ∈ w.registry → openPreview w key b = w)
      ∧ openPreview (openPreview w key b) key b2 = openPreview w key b
      ∧ (w.registry.Nodup →
          (openPreview (openPreview w key b) key b2).registry.count key = 1
          ∧ (openPreview w key b).registry.Nodup
          ∧ (closePreview w key).registry.Nodup) := by
  intro w key b b2
  by_cases h : key ∈ w.registry
  · have he := openPreview_mem w key b h
    refine ⟨fun _ => he, ?_, fun hnd => ?_⟩
    · rw [he, openPreview_mem w key b2 h]
    · refine ⟨?_, ?_, List.Nodup.erase key hnd⟩
      · rw [he, openPreview_mem w key b2 h]
        exact List.count_eq_one_of_mem hnd h
      · rw [he]; exact hnd
  · have h1 : (openPreview w key b).registry = key :: w.registry := by
      simp [openPreview, h]
    have hmem : key ∈ (openPreview w key b).registry := by
      rw [h1]; exact List.mem_cons_self _ _
    have h2 := openPreview_mem (openPreview w key b) key b2 hmem
    refine ⟨fun hk => absurd hk h, h2, fun hnd => ?_⟩
    have hnd2 : (openPreview w key b).registry.Nodup := by
      rw [h1]; exact List.nodup_cons.mpr ⟨h, hnd⟩
    refine ⟨?_, hnd2, List.Nodup.erase key hnd⟩
    rw [h2]
    exact List.count_eq_one_of_mem hnd2 hmem

theorem c7_open_idempotent_registry_witness :
    openPreview ⟨["k"], 1, 1, 1⟩ "k" true = ⟨["k"], 1, 1, 1⟩
    ∧ (openPreview (openPreview ⟨[], 0, 0, 0⟩ "k" true) "k" false).registry.count "k" = 1 := by
  refine ⟨(c7_open_idempotent_registry ⟨["k"], 1, 1, 1⟩ "k" true true).1 (by decide), ?_⟩
  exact ((c7_open_idempotent_registry ⟨[], 0, 0, 0⟩ "k" true false).2.2 (by decide)).1

/-- C8: the demo server answers "/" and "/index.html" with 200, the payload
read for this very request and the text/html content type; any other path
with 404; a failed read with 500; and serving a request never closes the
server (the session stays alive).  The last two conjuncts show the payload
is re-read per request: a second request reflects the new read result. -/
theorem c8_request_handling :
    ∀ (s : ServerState) (url : Option String) (payload h1 h2 : String),
      ((requestPath url = "/" ∨ requestPath url = "/index.html") →
        handleRequest (some payload) url = ⟨200, some "text/html; charset=utf-8", payload⟩
        ∧ handleRequest none url = ⟨500, none, "Failed to load demo"⟩)
      ∧ (requestPath url ≠ "/" → requestPath url ≠ "/index.html" →
        ∀ r, handleRequest r url = ⟨404, none, "Not Found"⟩)
      ∧ (∀ r, (serveRequest s r url).1 = s)
      ∧ (serveRequest s (some h1) (some "/")).2.body = h1
      ∧ (serveRequest (serveRequest s (some h1) (some "/")).1 (some h2) (some "/")).2.body = h2 := by
  intro s url payload h1 h2
  refine ⟨fun h => ?_, fun hn hi r => ?_, fun r => rfl, rfl, rfl⟩
  · rcases h with h | h <;> simp [handleRequest, h]
  · simp [handleRequest, hn, hi]

theorem c8_request_handling_witness :
    handleRequest (some "<html>") (some "/index.html") = ⟨200, some "text/html; charset=utf-8", "<html>"⟩
    ∧ handleRequest (some "x") (some "/missing.png") = ⟨404, none, "Not Found"⟩
    ∧ handleRequest none (some "/") = ⟨500, none, "Failed to load demo"⟩ := by
  refine ⟨((c8_request_handling ⟨false⟩ (some "/index.html") "<html>" "a" "b").1 (Or.inr (by decide))).1,
    (c8_request_handling ⟨false⟩ (some "/missing.png") "x" "a" "b").2.1 (by decide) (by decide) (some "x"),
    ((c8_request_handling ⟨false⟩ (some "/") "x" "a" "b").1 (Or.inl (by decide))).2⟩

/-- C1 as stated is false at allowHttp = false with an empty remote URL: the
code still starts the demo server (lines 56-62 consult only isHttpsUrl),
although resolution indeed yields the bundled fallback. -/
theorem c1_counterexample :
    openStartsDemoServer "" = true
    ∧ resolvedVariant "" (some (demoServerUrl 3000)) false = ContentSource.LocalBundled := by
  decide

/-- C1 amended: with allowHttp = false and a remote URL that is not a valid
https URL, resolution always yields LocalBundled and the open flow returns
the bundled webview resource — but the demo server is nevertheless started
(lines 56-62 ignore allowHttp) and left unused by the resolution. -/
theorem c1_amended_bundled_resolution_but_server_started :
    ∀ (webview : Webview) (remoteUrl : String) (port : Nat),
      isHttpsUrl (some remoteUrl) = false →
      resolvedVariant remoteUrl (some (demoServerUrl port)) false = ContentSource.LocalBundled
      ∧ openStartsDemoServer remoteUrl = true
      ∧ openFlowResolve webview remoteUrl false (Except.ok port)
          = Except.ok ⟨webview.demoResourceUri, webview.cspSource ++ " vscode-resource:", "*"⟩ := by
  intro wv r p h
  refine ⟨?_, ?_, ?_⟩
  · simp [resolvedVariant, h]
  · simp [openStartsDemoServer, h]
  · simp [openFlowResolve, resolveAppSrc, h]

theorem c1_amended_witness :
    resolvedVariant "" (some (demoServerUrl 4000)) false = ContentSource.LocalBundled
    ∧ openStartsDemoServer "" = true
    ∧ openFlowResolve ⟨"wv", "res"⟩ "" false (Except.ok 4000)
        = Except.ok ⟨"res", "wv" ++ " vscode-resource:", "*"⟩ :=
  c1_amended_bundled_resolution_but_server_started ⟨"wv", "res"⟩ "" 4000 (by decide)

/-- C3 as stated is false in its degradation half: with a non-https remote
URL and a failing server bind, the open flow propagates the bind error
instead of degrading to LocalBundled. -/
theorem c3_counterexample :
    openFlowResolve ⟨"wvc", "wvd"⟩ "" true (Except.error "EADDRINUSE")
      = Except.error "EADDRINUSE" := by
  rfl

/-- C3 amended: a malformed remote URL is treated as absent and never
raises — isHttpsUrl totally returns false and the open flow proceeds
exactly as with an empty remote — but a demo-server bind failure aborts the
open flow with the propagated error rather than degrading to LocalBundled. -/
theorem c3_amended_malformed_absent_but_bind_failure_aborts :
    ∀ (webview : Webview) (v : String) (allowHttp : Bool)
      (bindOutcome : Except String Nat) (e : String),
      (parseURL v = none →
        isHttpsUrl (some v) = false
        ∧ openFlowResolve webview v allowHttp bindOutcome
            = openFlowResolve webview "" allowHttp bindOutcome)
      ∧ (isHttpsUrl (some v) = false →
        openFlowResolve webview v allowHttp (Except.error e) = Except.error e) := by
  intro wv v ah b e
  have h0 : isHttpsUrl (some "") = false := rfl
  constructor
  · intro hp
    have hh : isHttpsUrl (some v) = false := by
      by_cases hv : v = ""
      · rw [hv]; exact h0
      · simp [isHttpsUrl, hv, hp]
    refine ⟨hh, ?_⟩
    cases b with
    | error e2 => simp [openFlowResolve, hh, h0]
    | ok port => simp [openFlowResolve, resolveAppSrc, hh, h0]
  · intro hh
    simp [openFlowResolve, hh]

theorem c3_amended_witness :
    (isHttpsUrl (some "not a url") = false
      ∧ openFlowResolve ⟨"wc", "wd"⟩ "not a url" true (Except.ok 5000)
          = openFlowResolve ⟨"wc", "wd"⟩ "" true (Except.ok 5000))
    ∧ openFlowResolve ⟨"wc", "wd"⟩ "not a url" true (Except.error "bind failed")
        = Except.error "bind failed" :=
  ⟨(c3_amended_malformed_absent_but_bind_failure_aborts ⟨"wc", "wd"⟩ "not a url" true
      (Except.ok 5000) "bind failed").1 (by decide),
   (c3_amended_malformed_absent_but_bind_failure_aborts ⟨"wc", "wd"⟩ "not a url" true
      (Except.ok 5000) "bind failed").2 (by decide)⟩

/-- C4: resolution picks Remote exactly when the configured value parses as
a URL with the https scheme; the frame then loads the value itself and the
message target origin is the value's origin. -/
theorem c4_remote_iff_https :
    ∀ (webview : Webview) (v : String) (demoUrl : Option String) (allowHttp : Bool),
      (resolvedVariant v demoUrl allowHttp = ContentSource.Remote
        ↔ ∃ u, parseURL v = some u ∧ u.protocol = "https:")
      ∧ (∀ u, parseURL v = some u → u.protocol = "https:" →
          resolveAppSrc webview v demoUrl allowHttp = ⟨v, u.origin, u.origin⟩) := by
  intro wv v demo ah
  have hiff : isHttpsUrl (some v) = true ↔ ∃ u, parseURL v = some u ∧ u.protocol = "https:" := by
    constructor
    · intro h
      by_cases hv : v = ""
      · rw [hv] at h; exact absurd h (by decide)
      · simp only [isHttpsUrl, if_neg hv] at h
        cases hp : parseURL v with
        | none => rw [hp] at h; exact absurd h (by simp)
        | some u =>
          rw [hp] at h
          exact ⟨u, rfl, by simpa using h⟩
    · rintro ⟨u, hu, hproto⟩
      have hv : v ≠ "" := by
        intro hcon
        rw [hcon] at hu
        have hnone : parseURL "" = none := rfl
        rw [hnone] at hu
        exact Option.noConfusion hu
      simp only [isHttpsUrl, if_neg hv, hu]
      simpa using hproto
  have hvar : resolvedVariant v demo ah = ContentSource.Remote ↔ isHttpsUrl (some v) = true := by
    unfold resolvedVariant
    cases h : isHttpsUrl (some v)
    · simp only [h, Bool.false_eq_true, if_false]
      constructor
      · intro hcon
        by_cases hc : (ah && truthy demo) = true <;> simp [hc] at hcon
      · intro hcon
        exact absurd hcon (by simp)
    · simp [h]
  refine ⟨hvar.trans hiff, fun u hu hproto => ?_⟩
  have hhttps : isHttpsUrl (some v) = true := hiff.mpr ⟨u, hu, hproto⟩
  simp only [resolveAppSrc, hhttps, if_true]
  rw [urlOrigin, hu]
  rfl

theorem c4_remote_iff_https_witness :
    resolvedVariant "https://ex.com/app" none true = ContentSource.Remote
    ∧ resolveAppSrc ⟨"wvcsp", "wvdemo"⟩ "https://ex.com/app" none true
        = ⟨"https://ex.com/app", "https://ex.com", "https://ex.com"⟩ := by
  constructor
  · exact ((c4_remote_iff_https ⟨"wvcsp", "wvdemo"⟩ "https://ex.com/app" none true).1).mpr
      ⟨⟨"https:", "ex.com", ""⟩, by decide, rfl⟩
  · have h := (c4_remote_iff_https ⟨"wvcsp", "wvdemo"⟩ "https://ex.com/app" none true).2
      ⟨"https:", "ex.com", ""⟩ (by decide) rfl
    rw [h]
    decide

/-- A nonempty URL with no query separator is its own request path. -/
theorem requestPath_no_query (p : String) (hp : p ≠ "")
    (h : p.data.all (fun c => c != '?') = true) : requestPath (some p) = p := by
  simp only [requestPath, if_neg hp]
  rw [List.takeWhile_eq_self_iff.mpr (by simpa using List.all_eq_true.mp h)]
  exact String.asString_toList p

/-- C10: path matching ignores everything from the first '?' onward and a
request with no URL is treated as a request for "/"; in particular
"/index.html?x=1" and "/?q" are served 200 with the payload, not 404. -/
theorem c10_query_ignored_and_default_path :
    (∀ (p q : String) (r : Option String), p ≠ "" →
        p.data.all (fun c => c != '?') = true →
        handleRequest r (some (p ++ "?" ++ q)) = handleRequest r (some p))
    ∧ (∀ r : Option String, handleRequest r none = handleRequest r (some "/"))
    ∧ (∀ payload : String,
        handleRequest (some payload) (some "/index.html?x=1")
          = ⟨200, some "text/html; charset=utf-8", payload⟩
        ∧ handleRequest (some payload) (some "/?q")
          = ⟨200, some "text/html; charset=utf-8", payload⟩) := by
  have hpath : ∀ (p q : String), p ≠ "" → p.data.all (fun c => c != '?') = true →
      requestPath (some (p ++ "?" ++ q)) = p := by
    intro p q hp h
    have hd : (p ++ "?" ++ q).data = p.data ++ '?' :: q.data := by
      simp
    have hne : p ++ "?" ++ q ≠ "" := by
      intro hcon
      have h2 := congrArg String.data hcon
      rw [hd] at h2
      simp at h2
    simp only [requestPath, if_neg hne, hd]
    rw [List.takeWhile_append_of_pos (by simpa using List.all_eq_true.mp h)]
    rw [List.takeWhile_cons_of_neg (by simp)]
    rw [List.append_nil]
    exact String.asString_toList p
  refine ⟨fun p q r hp h => ?_, fun r => ?_, fun payload => ?_⟩
  · unfold handleRequest
    rw [hpath p q hp h, requestPath_no_query p hp h]
  · rfl
  · have h1 : requestPath (some "/index.html?x=1") = "/index.html" := by decide
    have h2 : requestPath (some "/?q") = "/" := by decide
    constructor
    · unfold handleRequest
      rw [h1]
      rfl
    · unfold handleRequest
      rw [h2]
      rfl

theorem c10_query_ignored_and_default_path_witness :
    handleRequest (some "<payload>") (some "/index.html?x=1")
      = ⟨200, some "text/html; charset=utf-8", "<payload>"⟩
    ∧ handleRequest (some "<payload>") (some "/?q")
      = ⟨200, some "text/html; charset=utf-8", "<payload>"⟩
    ∧ handleRequest (some "<payload>") (some ("/index.html" ++ "?" ++ "x=1"))
      = handleRequest (some "<payload>") (some "/index.html") :=
  ⟨(c10_query_ignored_and_default_path.2.2 "<payload>").1,
   (c10_query_ignored_and_default_path.2.2 "<payload>").2,
   c10_query_ignored_and_default_path.1 "/index.html" "x=1" (some "<payload>")
     (by decide) (by decide)⟩

/-- During a burst every non-final timer is cancelled, so the whole burst
collapses to the single emission armed by its last call. -/
theorem debounce_burst_aux :
    ∀ (delay : Nat) (c : Call) (rest : List Call),
      burst delay (c :: rest) = true →
      debounceEmits delay (c :: rest)
        = [⟨(lastCall c rest).time + delay, (lastCall c rest).version,
            (lastCall c rest).yaml⟩] := by
  intro delay c rest
  induction rest generalizing c with
  | nil => intro _; rfl
  | cons c2 rest2 ih =>
    intro hb
    have hb2 : ((decide (c.time < c2.time) && decide (c2.time < c.time + delay))
        && burst delay (c2 :: rest2)) = true := hb
    simp only [Bool.and_eq_true, decide_eq_true_eq] at hb2
    obtain ⟨⟨_, h2⟩, h3⟩ := hb2
    have hnot : ¬ (c.time + delay < c2.time) := by omega
    simp only [debounceEmits, if_neg hnot]
    exact ih c2 h3

/-- C6: a burst of calls (each within less than the delay of the previous)
produces exactly one emission, carrying the version and text of the last
call in the burst; two calls more than the delay apart produce exactly two
emissions, one per call. -/
theorem c6_debounce_burst_and_spacing :
    (∀ (delay : Nat) (c : Call) (rest : List Call),
      burst delay (c :: rest) = true →
      debounceEmits delay (c :: rest)
        = [⟨(lastCall c rest).time + delay, (lastCall c rest).version,
            (lastCall c rest).yaml⟩])
    ∧ (∀ (delay : Nat) (c c2 : Call), c.time + delay < c2.time →
      debounceEmits delay [c, c2]
        = [⟨c.time + delay, c.version, c.yaml⟩,
           ⟨c2.time + delay, c2.version, c2.yaml⟩]) := by
  refine ⟨debounce_burst_aux, fun delay c c2 hgap => ?_⟩
  simp only [debounceEmits, if_pos hgap]

theorem c6_debounce_burst_and_spacing_witness :
    debounceEmits 300 [⟨0, 1, "a"⟩, ⟨100, 2, "ab"⟩, ⟨150, 3, "abc"⟩] = [⟨450, 3, "abc"⟩]
    ∧ debounceEmits 300 [⟨0, 1, "a"⟩, ⟨400, 2, "b"⟩] = [⟨300, 1, "a"⟩, ⟨700, 2, "b"⟩] :=
  ⟨c6_debounce_burst_and_spacing.1 300 ⟨0, 1, "a"⟩ [⟨100, 2, "ab"⟩, ⟨150, 3, "abc"⟩] (by decide),
   c6_debounce_burst_and_spacing.2 300 ⟨0, 1, "a"⟩ ⟨400, 2, "b"⟩ (by decide)⟩

/-! ### Digit lemmas for the generic-port origin computation -/

theorem toDigitsCore_pred (P : Char → Bool)
    (hdigit : ∀ m : Nat, m < 10 → P (Nat.digitChar m) = true) :
    ∀ (f n : Nat) (ds : List Char), (∀ c ∈ ds, P c = true) →
      ∀ c ∈ Nat.toDigitsCore 10 f n ds, P c = true := by
  intro f
  induction f with
  | zero => intro n ds hds c hc; exact hds c hc
  | succ f ih =>
    intro n ds hds c hc
    simp only [Nat.toDigitsCore] at hc
    by_cases h : n / 10 = 0
    · rw [if_pos h] at hc
      rcases List.mem_cons.mp hc with h1 | h1
      · rw [h1]; exact hdigit _ (Nat.mod_lt _ (by omega))
      · exact hds c h1
    · rw [if_neg h] at hc
      refine ih (n / 10) (Nat.digitChar (n % 10) :: ds) ?_ c hc
      intro c2 hc2
      rcases List.mem_cons.mp hc2 with h1 | h1
      · rw [h1]; exact hdigit _ (Nat.mod_lt _ (by omega))
      · exact hds c2 h1

theorem toDigitsCore_ne_nil :
    ∀ (f n : Nat) (ds : List Char), ds ≠ [] → Nat.toDigitsCore 10 f n ds ≠ [] := by
  intro f
  induction f with
  | zero => intro n ds h; exact h
  | succ f ih =>
    intro n ds h
    simp only [Nat.toDigitsCore]
    by_cases hdiv : n / 10 = 0
    · rw [if_pos hdiv]; exact List.cons_ne_nil _ _
    · rw [if_neg hdiv]; exact ih (n / 10) _ (List.cons_ne_nil _ _)

theorem toDigits_ne_nil (n : Nat) : Nat.toDigits 10 n ≠ [] := by
  show Nat.toDigitsCore 10 (n + 1) n [] ≠ []
  simp only [Nat.toDigitsCore]
  by_cases hdiv : n / 10 = 0
  · rw [if_pos hdiv]; exact List.cons_ne_nil _ _
  · rw [if_neg hdiv]; exact toDigitsCore_ne_nil n (n / 10) _ (List.cons_ne_nil _ _)

theorem foldl_decimal_shift :
    ∀ (l : List Char) (a : Nat),
      l.foldl (fun a c => a * 10 + digitVal c) a = a * 10 ^ l.length + decimalVal l := by
  intro l
  induction l with
  | nil => intro a; simp [decimalVal]
  | cons c cs ih =>
    intro a
    have hstep : (c :: cs).foldl (fun a c => a * 10 + digitVal c) a
        = cs.foldl (fun a c => a * 10 + digitVal c) (a * 10 + digitVal c) := rfl
    have hdv : decimalVal (c :: cs) = digitVal c * 10 ^ cs.length + decimalVal cs := by
      show cs.foldl (fun a c => a * 10 + digitVal c) (0 * 10 + digitVal c) = _
      rw [ih (0 * 10 + digitVal c), Nat.zero_mul, Nat.zero_add]
    rw [hstep, ih (a * 10 + digitVal c), hdv, List.length_cons, pow_succ]
    ring

theorem digitVal_digitChar (m : Nat) (h : m < 10) :
    digitVal (Nat.digitChar m) = m := by
  interval_cases m <;> decide

theorem decimalVal_toDigitsCore :
    ∀ (f n : Nat) (ds : List Char), n < 10 ^ f →
      decimalVal (Nat.toDigitsCore 10 f n ds)
        = n * 10 ^ ds.length + decimalVal ds := by
  intro f
  induction f with
  | zero =>
    intro n ds hn
    have hz : n = 0 := by simpa using hn
    rw [hz]
    simp [Nat.toDigitsCore]
  | succ f ih =>
    intro n ds hn
    simp only [Nat.toDigitsCore]
    have hmod : n % 10 < 10 := Nat.mod_lt _ (by omega)
    by_cases h : n / 10 = 0
    · rw [if_pos h]
      have hlt : n < 10 := by omega
      have h2 : decimalVal (Nat.digitChar (n % 10) :: ds)
          = digitVal (Nat.digitChar (n % 10)) * 10 ^ ds.length + decimalVal ds := by
        show ds.foldl (fun a c => a * 10 + digitVal c)
            (0 * 10 + digitVal (Nat.digitChar (n % 10))) = _
        rw [foldl_decimal_shift, Nat.zero_mul, Nat.zero_add]
      rw [h2, digitVal_digitChar _ hmod, Nat.mod_eq_of_lt hlt]
    · rw [if_neg h]
      have hdiv : n / 10 < 10 ^ f := by
        rw [Nat.div_lt_iff_lt_mul (by omega : 0 < 10)]
        calc n < 10 ^ (f + 1) := hn
        _ = 10 ^ f * 10 := by rw [pow_succ]
      rw [ih (n / 10) (Nat.digitChar (n % 10) :: ds) hdiv]
      have h2 : decimalVal (Nat.digitChar (n % 10) :: ds)
          = (n % 10) * 10 ^ ds.length + decimalVal ds := by
        show ds.foldl (fun a c => a * 10 + digitVal c)
            (0 * 10 + digitVal (Nat.digitChar (n % 10))) = _
        rw [foldl_decimal_shift, Nat.zero_mul, Nat.zero_add, digitVal_digitChar _ hmod]
      rw [h2, List.length_cons, pow_succ]
      have hq : n / 10 * 10 + n % 10 = n := by omega
      calc n / 10 * (10 ^ ds.length * 10) + (n % 10 * 10 ^ ds.length + decimalVal ds)
          = (n / 10 * 10 + n % 10) * 10 ^ ds.length + decimalVal ds := by ring
      _ = n * 10 ^ ds.length + decimalVal ds := by rw [hq]

theorem decimalVal_toDigits (n : Nat) : decimalVal (Nat.toDigits 10 n) = n := by
  have h : n < 10 ^ (n + 1) :=
    lt_of_lt_of_le (Nat.lt_pow_self (by omega) n)
      (Nat.pow_le_pow_right (by omega) (Nat.le_succ n))
  have h2 := decimalVal_toDigitsCore (n + 1) n [] h
  simpa [decimalVal] using h2

/-- The decimal rendering of naturals is injective. -/
theorem natToString_inj (m n : Nat) (h : toString m = toString n) : m = n := by
  have hd : Nat.toDigits 10 m = Nat.toDigits 10 n := congrArg String.data h
  calc m = decimalVal (Nat.toDigits 10 m) := (decimalVal_toDigits m).symm
  _ = decimalVal (Nat.toDigits 10 n) := by rw [hd]
  _ = n := decimalVal_toDigits n

/-- Decimal digit characters are never URL delimiters. -/
theorem toDigits_urlSafe (n : Nat) :
    ∀ c ∈ Nat.toDigits 10 n, (hostChar c && (c != ':')) = true := by
  intro c hc
  have hc2 : c ∈ Nat.toDigitsCore 10 (n + 1) n [] := hc
  refine toDigitsCore_pred (fun c => hostChar c && (c != ':')) ?_ (n + 1) n [] ?_ c hc2
  · intro m hm
    interval_cases m <;> decide
  · intro c2 hc2b
    exact absurd hc2b (List.not_mem_nil c2)

/-! ### Parsing the loopback demo URL for an arbitrary port -/

theorem splitScheme_http (l : List Char) :
    splitScheme ("http://".data ++ l) = some ("http".data, l) := rfl

theorem parseURL_split (v : String) (s r : List Char)
    (h : splitScheme v.data = some (s, r)) : parseURL v = parseURLCore s r := by
  unfold parseURL
  rw [h]

/-- For digit-like characters `digits` other than "80" (http's default
port, which `URL.origin` elides), `http://127.0.0.1:<digits>/index.html`
parses to protocol http:, hostname 127.0.0.1 and port `digits`. -/
theorem parseURL_loopback (v : String) (digits : List Char)
    (hv : v.data = "http://".data ++ ("127.0.0.1:".data ++ (digits ++ "/index.html".data)))
    (hhost : ∀ c ∈ digits, hostChar c = true)
    (h80 : digits ≠ ['8', '0']) :
    parseURL v = some ⟨"http:", "127.0.0.1", digits.asString⟩ := by
  have hsplit : splitScheme v.data
      = some ("http".data, "127.0.0.1:".data ++ (digits ++ "/index.html".data)) := by
    rw [hv]; exact splitScheme_http _
  rw [parseURL_split v _ _ hsplit]
  have hhp : ("127.0.0.1:".data ++ (digits ++ "/index.html".data)).takeWhile hostChar
      = "127.0.0.1:".data ++ digits := by
    rw [List.takeWhile_append_of_pos (by decide)]
    rw [List.takeWhile_append_of_pos hhost]
    rw [show ("/index.html".data).takeWhile hostChar = [] from rfl, List.append_nil]
  have hname : ("127.0.0.1:".data ++ digits).takeWhile (fun c => c != ':')
      = "127.0.0.1".data := by
    rw [show ("127.0.0.1:".data ++ digits) = "127.0.0.1".data ++ (':' :: digits) from rfl]
    rw [List.takeWhile_append_of_pos (by decide)]
    rw [List.takeWhile_cons_of_neg (by decide), List.append_nil]
  have hport : (("127.0.0.1:".data ++ digits).dropWhile (fun c => c != ':')).drop 1
      = digits := by
    rw [show ("127.0.0.1:".data ++ digits) = "127.0.0.1".data ++ (':' :: digits) from rfl]
    rw [List.dropWhile_append_of_pos (by decide)]
    rw [List.dropWhile_cons_of_neg (by decide)]
    rfl
  have hempty : ("127.0.0.1:".data ++ digits).isEmpty = false := rfl
  have hvalid : validScheme "http".data = true := by decide
  have hss : (("http".data.map Char.toLower).asString == "https") = false := by decide
  have hsh : (("http".data.map Char.toLower).asString == "http") = true := by decide
  have h80b : (digits == ['8', '0']) = false := by
    simp only [beq_eq_false_iff_ne, ne_eq]
    exact h80
  have hsch : ("http".data.map Char.toLower).asString ++ ":" = "http:" := by decide
  have hhostlit : ("127.0.0.1".data).asString = "127.0.0.1" := rfl
  simp only [parseURLCore, hvalid, if_true, hhp, hempty, Bool.false_eq_true, if_false,
    hname, hport, hss, hsh, h80b, Bool.false_and, Bool.true_and, Bool.false_or,
    hsch, hhostlit]

/-- For ports other than 80 the demo URL parses with the port's digits. -/
theorem parseURL_demoServerUrl (p : Nat) (hp : p ≠ 80) :
    parseURL (demoServerUrl p) = some ⟨"http:", "127.0.0.1", toString p⟩ := by
  have hts : (toString p).data = Nat.toDigits 10 p := rfl
  have h80 : Nat.toDigits 10 p ≠ ['8', '0'] := by
    intro hcon
    apply hp
    apply natToString_inj
    show (Nat.toDigits 10 p).asString = toString 80
    rw [hcon]
    decide
  have hhost : ∀ c ∈ Nat.toDigits 10 p, hostChar c = true := by
    intro c hc
    exact (Bool.and_eq_true _ _ ▸ toDigits_urlSafe p c hc).1
  have hdata : (demoServerUrl p).data
      = "http://".data ++ ("127.0.0.1:".data ++ (Nat.toDigits 10 p ++ "/index.html".data)) := by
    show ("http://127.0.0.1:" ++ toString p ++ "/index.html").data = _
    rw [String.data_append, String.data_append, hts]
    rw [show "http://127.0.0.1:".data = "http://".data ++ "127.0.0.1:".data from rfl]
    simp [List.append_assoc]
  have hmain := parseURL_loopback (demoServerUrl p) (Nat.toDigits 10 p) hdata hhost h80
  rw [hmain]
  rfl

/-- C5: for Remote and LocalServed the frame-src allow-list and the message
target origin are exactly the single resolved origin; for LocalBundled the
allow-list is the webview's cspSource token plus the legacy resource scheme
and the target origin is the wildcard; and a server bound to a port p other
than 80 (OS-assigned ephemeral ports never equal 80) yields the address
http://127.0.0.1:p/index.html with origin http://127.0.0.1:p. -/
theorem c5_policy_pins_origins :
    (∀ (w : Webview) (v : String) (demo : Option String) (ah : Bool),
      (resolvedVariant v demo ah = ContentSource.Remote →
        resolveAppSrc w v demo ah = ⟨v, urlOrigin v, urlOrigin v⟩)
      ∧ (resolvedVariant v demo ah = ContentSource.LocalServed →
          ∃ d, demo = some d
            ∧ resolveAppSrc w v demo ah = ⟨d, urlOrigin d, urlOrigin d⟩)
      ∧ (resolvedVariant v demo ah = ContentSource.LocalBundled →
          resolveAppSrc w v demo ah
            = ⟨w.demoResourceUri, w.cspSource ++ " vscode-resource:", "*"⟩))
    ∧ (∀ p : Nat, p ≠ 80 →
        demoServerUrl p = "http://127.0.0.1:" ++ toString p ++ "/index.html"
        ∧ urlOrigin (demoServerUrl p) = "http://127.0.0.1:" ++ toString p) := by
  constructor
  · intro w v demo ah
    by_cases h1 : isHttpsUrl (some v) = true
    · refine ⟨fun _ => by simp [resolveAppSrc, h1], fun hvar => ?_, fun hvar => ?_⟩
      · rw [resolvedVariant, if_pos h1] at hvar
        exact absurd hvar (by decide)
      · rw [resolvedVariant, if_pos h1] at hvar
        exact absurd hvar (by decide)
    · rw [Bool.not_eq_true] at h1
      by_cases h2 : (ah && truthy demo) = true
      · refine ⟨fun hvar => ?_, fun _ => ?_, fun hvar => ?_⟩
        · rw [resolvedVariant, if_neg (by simp [h1]), if_pos h2] at hvar
          exact absurd hvar (by decide)
        · have htr : truthy demo = true := (Bool.and_eq_true _ _ ▸ h2).2
          cases demo with
          | none => exact absurd htr (by decide)
          | some d =>
            refine ⟨d, rfl, ?_⟩
            simp [resolveAppSrc, h1, h2]
        · rw [resolvedVariant, if_neg (by simp [h1]), if_pos h2] at hvar
          exact absurd hvar (by decide)
      · refine ⟨fun hvar => ?_, fun hvar => ?_, fun _ => ?_⟩
        · rw [resolvedVariant, if_neg (by simp [h1]), if_neg h2] at hvar
          exact absurd hvar (by decide)
        · rw [resolvedVariant, if_neg (by simp [h1]), if_neg h2] at hvar
          exact absurd hvar (by decide)
        · simp [resolveAppSrc, h1, h2]
  · intro p hp
    refine ⟨rfl, ?_⟩
    have hne : toString p ≠ "" := fun hcon =>
      toDigits_ne_nil p (congrArg String.data hcon)
    rw [urlOrigin, parseURL_demoServerUrl p hp]
    simp only [Option.map_some', Option.getD_some, URLRec.origin]
    rw [if_neg hne]
    rw [← String.append_assoc]
    rw [show ("http:" ++ "//" ++ "127.0.0.1" ++ ":") = "http://127.0.0.1:" from rfl]

theorem c5_policy_pins_origins_witness :
    resolveAppSrc ⟨"wcsp", "wres"⟩ "" (some (demoServerUrl 54321)) true
      = ⟨"http://127.0.0.1:54321/index.html", "http://127.0.0.1:54321",
         "http://127.0.0.1:54321"⟩
    ∧ urlOrigin (demoServerUrl 54321) = "http://127.0.0.1:54321" := by
  constructor
  · obtain ⟨d, hd, hres⟩ :=
      (c5_policy_pins_origins.1 ⟨"wcsp", "wres"⟩ "" (some (demoServerUrl 54321)) true).2.1
        (by decide)
    rw [hres, (Option.some.inj hd).symm]
    decide
  · exact (c5_policy_pins_origins.2 54321 (by decide)).2.trans (by decide)


end YamlPreview
